import Mathlib

/-
Verification of the cache policy engine in src/cachecontrol/controller.py
(httpx-caching).  The definitions below are a shallow embedding of the
`CacheController` class: Python dict / httpx.Headers values are modelled as
association lists, the storage backend (DictCache: get / set / delete by key)
as an association list from keys to raw byte values, and the out-of-scope
serializer (loads / dumps) and HTTP-date parser (parsedate_tz + timegm) as
function fields of the `Controller` record.  Python exceptions are modelled
with `Except String`; a raised exception carries the exception class name.
-/

namespace CacheCtrl

/-- Raw cache data: the bytes stored in the backend (serializer output). -/
abbrev Raw := List UInt8

/-- ASCII lowercase of one character (header and directive names are ASCII).
All string primitives below work on character lists so that they reduce in
the kernel. -/
def lowerChar (c : Char) : Char :=
  if 65 ≤ c.toNat && c.toNat ≤ 90 then Char.ofNat (c.toNat + 32) else c

/-- Python str.lower, restricted to ASCII. -/
def lowerStr (s : String) : String := String.mk (s.toList.map lowerChar)

/-- Python whitespace (as stripped by str.strip and int()). -/
def isPySpace (c : Char) : Bool :=
  c == ' ' || c == '\t' || c == '\n' || c == '\r' || c == '\x0b' || c == '\x0c'

/-- Python str.strip(): drop leading and trailing whitespace. -/
def pyStrip (s : String) : String :=
  String.mk (((s.toList.dropWhile isPySpace).reverse.dropWhile isPySpace).reverse)

/-- Emptiness test (Python falsiness of a string). -/
def strIsEmpty (s : String) : Bool := s.toList.isEmpty

/-- Python `c in s` for a single-character needle: substring containment of
one character. -/
def strContainsChar (s : String) (c : Char) : Bool := s.toList.contains c

/-- Python s.split(sep) on a character list, single-character separator. -/
def splitOnChar (sep : Char) : List Char → List (List Char)
  | [] => [[]]
  | c :: rest =>
    let r := splitOnChar sep rest
    if c == sep then [] :: r
    else
      match r with
      | [] => [[c]]
      | x :: xs => (c :: x) :: xs

/-- Python s.split(sep) for a single-character separator. -/
def pySplit (s : String) (sep : Char) : List String :=
  (splitOnChar sep s.toList).map String.mk

/-- Scan to the first occurrence of a separator character. -/
def breakAtChar (sep : Char) : List Char → List Char × Option (List Char)
  | [] => ([], none)
  | c :: rest =>
    if c == sep then ([], some rest)
    else
      let r := breakAtChar sep rest
      (c :: r.1, r.2)

/-- Python s.split(sep, 1): split at the first separator only. -/
def splitOnce (s : String) (sep : Char) : List String :=
  match breakAtChar sep s.toList with
  | (a, none) => [String.mk a]
  | (a, some b) => [String.mk a, String.mk b]

/-- Case-insensitive header mapping (httpx.Headers): list of name/value pairs,
lookup compares lowercased names, first match wins. -/
abbrev Headers := List (String × String)

/-- Header lookup, case-insensitive on the name (httpx.Headers getitem / get). -/
def getHeader : Headers → String → Option String
  | [], _ => none
  | (k, v) :: rest, n => if lowerStr k == lowerStr n then some v else getHeader rest n

/-- Header membership test (Python `name in headers`, case-insensitive). -/
def hasHeader (hs : Headers) (n : String) : Bool := (getHeader hs n).isSome

/-- Backend state: a finite map from cache keys to raw values (DictCache). -/
abbrev Cache := List (String × Raw)

/-- Backend `get(key)`: exact-key dictionary lookup. -/
def cacheGet : Cache → String → Option Raw
  | [], _ => none
  | (k, v) :: rest, n => if k == n then some v else cacheGet rest n

/-- Backend `delete(key)`: remove the entry under the key. -/
def cacheDelete : Cache → String → Cache
  | [], _ => []
  | (k, v) :: rest, n => if k == n then cacheDelete rest n else (k, v) :: cacheDelete rest n

/-- Backend `set(key, value)`: overwrite the entry under the key. -/
def cacheSet (c : Cache) (k : String) (v : Raw) : Cache := (k, v) :: cacheDelete c k

/-- Decimal digit run to a number (used for Python int() on digit strings). -/
def digitsVal (cs : List Char) : Nat := cs.foldl (fun n c => n * 10 + (c.toNat - 48)) 0

/-- Parse a non-empty all-digit character list, else fail. -/
def parseDigits (cs : List Char) : Option Nat :=
  if cs.isEmpty then none
  else if cs.all (fun c => c.isDigit) then some (digitsVal cs) else none

/-- Python `int(s)` on a decimal string literal: optional surrounding
whitespace, optional sign, decimal digits; anything else raises ValueError
(modelled as `none`).  Underscore digit grouping is not modelled. -/
def pyInt (s : String) : Option Int :=
  match (pyStrip s).toList with
  | [] => none
  | c :: rest =>
    if c = '-' then (parseDigits rest).map (fun n => -(n : Int))
    else if c = '+' then (parseDigits rest).map (fun n => (n : Int))
    else (parseDigits (c :: rest)).map (fun n => (n : Int))

/-- Python `str.isdigit` (ASCII): non-empty and every character a digit. -/
def isdigit (s : String) : Bool := !strIsEmpty s && s.toList.all (fun c => c.isDigit)

/-- An httpx request URL: scheme, authority, and its full string form. -/
structure Uri where
  scheme : String
  authority : String
  str : String
deriving DecidableEq

/-- CacheController.cache_url: reject URLs without scheme or authority
(Python falsiness of a string is emptiness), else the full URL string. -/
def cache_url (u : Uri) : Except String String :=
  if strIsEmpty u.scheme || strIsEmpty u.authority then
    Except.error "Only absolute URIs are allowed"
  else Except.ok u.str

/-- A deserialized cache entry, in the tuple order used by the source:
(http_version, status_code, reason_phrase, headers, body). -/
structure Resp where
  http_version : String
  status : Int
  reason : String
  headers : Headers
  body : Raw
deriving DecidableEq, Repr

/-- The CacheController dependencies: configuration plus the out-of-scope
serializer (`loads` absent on decode failure, `dumps` to raw bytes, argument
order as at the call sites: request headers, response headers, status,
http version, reason, body) and the HTTP-date parser
(`parsedate_tz` composed with `calendar.timegm`, epoch seconds, absent when
the date string is unparsable). -/
structure Controller where
  cache_etags : Bool
  cacheable_status_codes : List Int
  loads : Headers → Raw → Option Resp
  dumps : Headers → Headers → Int → String → String → Option Raw → Raw
  parsedate : String → Option Int

/-- PERMANENT_REDIRECT_STATUSES = (301, 308). -/
def PERMANENT_REDIRECT_STATUSES : List Int := [301, 308]

/-- The known_directives table of parse_cache_control: directive name to
(value is int-typed, value required). -/
def known_directives (d : String) : Option (Bool × Bool) :=
  if d == "max-age" then some (true, true)
  else if d == "max-stale" then some (true, false)
  else if d == "min-fresh" then some (true, true)
  else if d == "no-cache" then some (false, false)
  else if d == "no-store" then some (false, false)
  else if d == "no-transform" then some (false, false)
  else if d == "only-if-cached" then some (false, false)
  else if d == "must-revalidate" then some (false, false)
  else if d == "public" then some (false, false)
  else if d == "private" then some (false, false)
  else if d == "proxy-revalidate" then some (false, false)
  else if d == "s-maxage" then some (true, true)
  else none

/-- The parsed directive mapping (the Python dict `retval`): directive name
to optional integer value (`none` for flag-only entries). -/
abbrev CCMap := List (String × Option Int)

/-- Dictionary assignment `retval[k] = v` (overwrite). -/
def ccInsert (m : CCMap) (k : String) (v : Option Int) : CCMap :=
  (k, v) :: m.filter (fun p => p.1 != k)

/-- Dictionary lookup: `some v` when the key is present with value `v`. -/
def ccGet : CCMap → String → Option (Option Int)
  | [], _ => none
  | (k, v) :: rest, n => if k == n then some v else ccGet rest n

/-- Python `k in retval`. -/
def ccMem (m : CCMap) (k : String) : Bool := (ccGet m k).isSome

/-- The body of the per-directive loop of parse_cache_control.  An empty
segment is skipped; an unknown directive name is dropped; a directive that is
not int-typed or not value-required is first recorded with no value; an
int-typed directive then tries to parse its value, where a missing value
(IndexError) or an unparsable value (ValueError) leaves the mapping as it
stands (so a required directive is dropped, while max-stale keeps its
no-value entry). -/
def parseDirective (retval : CCMap) (cc_directive : String) : CCMap :=
  if strIsEmpty (pyStrip cc_directive) then retval
  else
    let parts := splitOnce cc_directive '='
    let directive := pyStrip (parts.headD "")
    match known_directives directive with
    | none => retval
    | some (typ, required) =>
      let r1 := if !typ || !required then ccInsert retval directive none else retval
      if typ then
        match parts with
        | [] => r1
        | [_] => r1
        | _ :: v :: _ =>
          match pyInt (pyStrip v) with
          | some n => ccInsert r1 directive (some n)
          | none => r1
      else r1

/-- CacheController.parse_cache_control: read the cache-control header
(defaulting to the empty string), split on commas, and fold the directive
loop over the segments starting from the empty dict. -/
def parse_cache_control (headers : Headers) : CCMap :=
  let cc_headers := (getHeader headers "cache-control").getD ""
  (pySplit cc_headers ',').foldl parseDirective []

/-- CacheController.cached_request (controller.py:94-203).  Returns the
Python result (False becomes `none`, a response becomes `some resp`; a raised
exception becomes `Except.error`) together with the backend state after the
call.  Points where this embedding must be read against the source:
the invalid-URL branch models the `raise` in cache_url; the source parses the
cache-control of `request_headers` a second time into `resp_cc` (line 159)
and reads the date, expires and etag headers from `request_headers` as well,
exactly as written; `calendar.timegm(parsedate_tz(s))` raises TypeError when
the date string is unparsable (`parsedate_tz` returns None), while an
unparsable expires string is checked and skipped; `max-age` and `min-fresh`
always carry an integer value when present (they are required int
directives), so the `getD 0` fallbacks are dead code. -/
def cached_request (C : Controller) (cache : Cache) (now : Int)
    (request_url : Uri) (request_headers : Headers) :
    Except String (Option Resp) × Cache :=
  match cache_url request_url with
  | Except.error e => (Except.error e, cache)
  | Except.ok cu =>
    let cc := parse_cache_control request_headers
    if ccMem cc "no-cache" then (Except.ok none, cache)
    else if ccGet cc "max-age" == some (some 0) then (Except.ok none, cache)
    else
      match cacheGet cache cu with
      | none => (Except.ok none, cache)
      | some cache_data =>
        match C.loads request_headers cache_data with
        | none => (Except.ok none, cache)
        | some resp =>
          if PERMANENT_REDIRECT_STATUSES.contains resp.status then
            (Except.ok (some resp), cache)
          else if request_headers.isEmpty || !hasHeader request_headers "date" then
            if !hasHeader request_headers "etag" then
              (Except.ok none, cacheDelete cache cu)
            else (Except.ok none, cache)
          else
            match C.parsedate ((getHeader request_headers "date").getD "") with
            | none => (Except.error "TypeError", cache)
            | some date =>
              let current_age : Int := max 0 (now - date)
              let resp_cc := parse_cache_control request_headers
              let freshness_lifetime : Int :=
                match ccGet resp_cc "max-age" with
                | some v => v.getD 0
                | none =>
                  if hasHeader request_headers "expires" then
                    match C.parsedate ((getHeader request_headers "expires").getD "") with
                    | some e => max 0 (e - date)
                    | none => 0
                  else 0
              let freshness_lifetime : Int :=
                match ccGet cc "max-age" with
                | some v => v.getD 0
                | none => freshness_lifetime
              let current_age : Int :=
                match ccGet cc "min-fresh" with
                | some v => current_age + v.getD 0
                | none => current_age
              if freshness_lifetime > current_age then (Except.ok (some resp), cache)
              else if !hasHeader request_headers "etag" then
                (Except.ok none, cacheDelete cache cu)
              else (Except.ok none, cache)

/-- CacheController.conditional_headers (controller.py:205-219).  After
computing the cache key, the source evaluates
`self.serializer.loads(request_headers, self.cache.get(cache_url))`; the
name `request_headers` is neither a parameter of the method nor defined at
module level, so evaluating the first argument raises NameError before the
backend is even read.  The rest of the method is unreachable. -/
def conditional_headers (_C : Controller) (_cache : Cache) (request_url : Uri) :
    Except String Headers :=
  match cache_url request_url with
  | Except.error e => Except.error e
  | Except.ok _ => Except.error "NameError: name request_headers is not defined"

/-- The content-length guard of cache_response (controller.py:246-252): a
present body whose declared numeric Content-Length disagrees with its actual
byte length.  `isdigit` guarantees that `pyInt` succeeds, so the `getD 0`
fallback is dead code. -/
def contentLengthMismatch (response_headers : Headers) (response_body : Option Raw) : Bool :=
  match response_body with
  | none => false
  | some b =>
    match getHeader response_headers "content-length" with
    | none => false
    | some cl => isdigit cl && ((pyInt cl).getD 0 != (b.length : Int))

/-- Python truthiness of `self.cache.get(cache_url)` (controller.py:268):
a missing entry (None) and empty bytes are falsy. -/
def rawTruthy : Option Raw → Bool
  | none => false
  | some b => !b.isEmpty

/-- CacheController.cache_response (controller.py:221-320).  Returns the
Python outcome together with the backend state after the call.  Points where
this embedding must be read against the source: when the status code is not
cacheable, the debug call `logger.debug("Status code %s not in %s",
response.status, ...)` evaluates the undefined name `response` and raises
NameError (arguments of a call are evaluated eagerly in Python); the
directives are parsed before the cache key is computed, so an invalid URL
raises only after the status and content-length returns; the no-store purge
happens only when the fetched raw entry is truthy (non-empty bytes); the
Vary check is Python substring containment of "*"; in the date branch the
inner `if response_headers["expires"]:` guards only a log message, so a
response with a Date header and an empty Expires value still falls through
to the store; the permanent-redirect branch replaces the body with empty
bytes before storing. -/
def cache_response (C : Controller) (cache : Cache) (request_url : Uri)
    (request_headers response_headers : Headers) (response_status_code : Int)
    (response_reason_phrase response_http_version : String)
    (response_body : Option Raw) : Except String Unit × Cache :=
  if !(C.cacheable_status_codes.contains response_status_code) then
    (Except.error "NameError: name response is not defined", cache)
  else if contentLengthMismatch response_headers response_body then
    (Except.ok (), cache)
  else
    let cc_req := parse_cache_control request_headers
    let cc := parse_cache_control response_headers
    match cache_url request_url with
    | Except.error e => (Except.error e, cache)
    | Except.ok cu =>
      let no_store := ccMem cc "no-store" || ccMem cc_req "no-store"
      let cache1 :=
        if no_store && rawTruthy (cacheGet cache cu) then cacheDelete cache cu
        else cache
      if no_store then (Except.ok (), cache1)
      else if strContainsChar ((getHeader response_headers "vary").getD "") '*' then
        (Except.ok (), cache1)
      else
        let store : Option (Option Raw) :=
          if C.cache_etags && hasHeader response_headers "etag" then
            some response_body
          else if PERMANENT_REDIRECT_STATUSES.contains response_status_code then
            some (some [])
          else if hasHeader response_headers "date" then
            let max_age_positive : Bool :=
              match ccGet cc "max-age" with
              | some v => decide (v.getD 0 > 0)
              | none => false
            if max_age_positive then some response_body
            else if hasHeader response_headers "expires" then some response_body
            else none
          else none
        match store with
        | none => (Except.ok (), cache1)
        | some b =>
          (Except.ok (),
           cacheSet cache1 cu
             (C.dumps request_headers response_headers response_status_code
               response_http_version response_reason_phrase b))

/-- Case-insensitive removal of every pair under a header name. -/
def headerRemove : Headers → String → Headers
  | [], _ => []
  | (k, v) :: rest, n =>
    if lowerStr k == lowerStr n then headerRemove rest n
    else (k, v) :: headerRemove rest n

/-- Case-insensitive header assignment (httpx.Headers setitem): drop any
existing occurrence of the name, append the new pair. -/
def headerSet (hs : Headers) (k v : String) : Headers := headerRemove hs k ++ [(k, v)]

/-- httpx.Headers.update: assign every pair of the update set in order.
The source builds a dict from the 304 response headers first, which collapses
duplicate exact keys; for header sets with pairwise distinct lowercased names
(the only case the theorems use) the two agree. -/
def headersUpdate : Headers → Headers → Headers
  | base, [] => base
  | base, (k, v) :: rest => headersUpdate (headerSet base k v) rest

/-- The excluded_headers list of update_cached_response. -/
def excluded_headers : List String := ["content-length"]

/-- CacheController.update_cached_response (controller.py:322-385).  Returns
the Python result (None becomes `none`, the
(version, status, reason, headers, body) tuple becomes a `Resp`) together
with the backend state after the call.  The serializer is called on
`self.cache.get(cache_url)`, which may be None; per its interface it reports
no entry in that case (the real serializer starts with `if not data:
return`).  The merge keeps every stored header that the 304 response does
not carry, overwrites the rest except content-length (compared lowercased),
forces the status to 200, and re-serializes with the original body bytes
(`cached_body.read(decode_content=False)`). -/
def update_cached_response (C : Controller) (cache : Cache) (request_url : Uri)
    (request_headers response_headers : Headers) :
    Except String (Option Resp) × Cache :=
  match cache_url request_url with
  | Except.error e => (Except.error e, cache)
  | Except.ok cu =>
    let loaded : Option Resp :=
      match cacheGet cache cu with
      | none => none
      | some d => C.loads request_headers d
    match loaded with
    | none => (Except.ok none, cache)
    | some cached =>
      let upd := response_headers.filter
        (fun p => !(excluded_headers.contains (lowerStr p.1)))
      let new_headers := headersUpdate cached.headers upd
      let merged : Resp :=
        ⟨cached.http_version, 200, cached.reason, new_headers, cached.body⟩
      (Except.ok (some merged),
       cacheSet cache cu
         (C.dumps request_headers new_headers 200 cached.http_version
           cached.reason (some cached.body)))

/-- A header set with pairwise distinct lowercased names (an ordinary header
dictionary). -/
def noDupLower : Headers → Bool
  | [] => true
  | (k, _) :: rest => rest.all (fun p => lowerStr p.1 != lowerStr k) && noDupLower rest

/-- The store condition of claim C2, written from the spec's words: (a) etag
caching enabled and response carries an ETag; (b) status 301 or 308; (c) Date
header present and response max-age a positive integer; (d) Date header
present and a NON-EMPTY Expires header.  Compared against the source's
behaviour, which stores on an empty Expires value as well. -/
def specStoreCondition (C : Controller) (response_headers : Headers) (status : Int) : Bool :=
  (C.cache_etags && hasHeader response_headers "etag")
  || (status == 301 || status == 308)
  || (hasHeader response_headers "date"
      && (match ccGet (parse_cache_control response_headers) "max-age" with
          | some v => decide (v.getD 0 > 0)
          | none => false))
  || (hasHeader response_headers "date"
      && (match getHeader response_headers "expires" with
          | some e => !strIsEmpty e
          | none => false))

/-- The store condition the source actually implements (claim C2 as amended):
clause (d) only requires the Expires header to be present, its value may even
be empty. -/
def codeStoreCondition (C : Controller) (response_headers : Headers) (status : Int) : Bool :=
  (C.cache_etags && hasHeader response_headers "etag")
  || (status == 301 || status == 308)
  || (hasHeader response_headers "date"
      && ((match ccGet (parse_cache_control response_headers) "max-age" with
           | some v => decide (v.getD 0 > 0)
           | none => false)
          || hasHeader response_headers "expires"))

/-- The body that reaches the serializer when a store happens: the original
body, unless the permanent-redirect branch (taken only when the etag branch
is not) replaced it with empty bytes. -/
def storedBody (C : Controller) (response_headers : Headers) (status : Int)
    (response_body : Option Raw) : Option Raw :=
  if C.cache_etags && hasHeader response_headers "etag" then response_body
  else if status == 301 || status == 308 then some []
  else response_body

/-- What claim C5 asserts of update_cached_response once an entry exists and
decodes to `cached`: the call returns the merged response and overwrites the
stored entry with its re-serialization; the merged response has status 200,
the original body, version and reason; every header of the 304 response other
than content-length overwrites the stored one; content-length and every
header the 304 response does not carry keep their stored values. -/
def UpdateSpecHolds (C : Controller) (cache : Cache) (request_url : Uri)
    (request_headers response_headers : Headers) (cu : String) (cached : Resp) : Prop :=
  ∃ resp2 : Resp,
    update_cached_response C cache request_url request_headers response_headers
      = (Except.ok (some resp2),
         cacheSet cache cu
           (C.dumps request_headers resp2.headers 200 cached.http_version
             cached.reason (some cached.body)))
    ∧ resp2.status = 200
    ∧ resp2.body = cached.body
    ∧ resp2.http_version = cached.http_version
    ∧ resp2.reason = cached.reason
    ∧ getHeader resp2.headers "content-length" = getHeader cached.headers "content-length"
    ∧ (∀ n : String, lowerStr n ≠ "content-length" → hasHeader response_headers n = true →
        getHeader resp2.headers n = getHeader response_headers n)
    ∧ (∀ n : String, getHeader response_headers n = none →
        getHeader resp2.headers n = getHeader cached.headers n)

/-- What claim C8 (as amended) asserts of cache_response when no-store is in
play: the call succeeds, a non-empty existing entry under the request's key
is removed, every other key is untouched, and nothing new is stored (every
entry of the resulting backend was already present). -/
def NoStorePurgeHolds (C : Controller) (cache : Cache) (request_url : Uri)
    (request_headers response_headers : Headers) (status : Int)
    (reason ver : String) (body : Option Raw) (cu : String) : Prop :=
  ∃ c2 : Cache,
    cache_response C cache request_url request_headers response_headers status reason ver body
      = (Except.ok (), c2)
    ∧ (∀ r : Raw, cacheGet cache cu = some r → r ≠ [] → cacheGet c2 cu = none)
    ∧ (∀ k : String, k ≠ cu → cacheGet c2 k = cacheGet cache k)
    ∧ (∀ k : String, ∀ r : Raw, cacheGet c2 k = some r → cacheGet cache k = some r)

/-- A sample absolute request URL. -/
def testUri : Uri := ⟨"http", "example.com", "http://example.com/"⟩

/-- The cache key of `testUri`. -/
def testKey : String := "http://example.com/"

/-- A concrete controller with the default configuration, a serializer that
decodes every raw entry to the given response and encodes everything to the
single byte 1, and an HTTP-date parser that reads plain epoch-second
strings. -/
def mkController (r : Option Resp) : Controller :=
  ⟨true, [200, 203, 300, 301, 308], fun _ _ => r, fun _ _ _ _ _ _ => [1], pyInt⟩

/-- Stored entry for the freshness scenario: Date = 100, max-age=60, no ETag. -/
def freshResp : Resp :=
  ⟨"HTTP/1.1", 200, "OK", [("date", "100"), ("cache-control", "max-age=60")], [65]⟩

/-- Stored entry carrying an ETag (and a Date) for the stale-purge scenario. -/
def etagResp : Resp :=
  ⟨"HTTP/1.1", 200, "OK", [("etag", "tag-xyz"), ("date", "100")], [65]⟩

/-- Stored permanent-redirect entry, with no Date header. -/
def redirectResp : Resp :=
  ⟨"HTTP/1.1", 301, "Moved Permanently", [("location", "http://example.com/new")], []⟩

/-- Stored entry with no validators at all. -/
def bareResp : Resp := ⟨"HTTP/1.1", 200, "OK", [], [7]⟩

/-- Stored entry for the revalidation-merge scenario. -/
def mergeCached : Resp :=
  ⟨"HTTP/1.1", 203, "Non-Authoritative",
   [("content-length", "1"), ("x-old", "keep"), ("etag", "tag1")], [66]⟩

/-- The 304 response headers for the revalidation-merge scenario. -/
def mergeRespHeaders : Headers :=
  [("date", "Fri"), ("content-length", "99"), ("etag", "tag2")]

/-- Deleting a key removes its entry. -/
theorem cacheGet_delete_self (c : Cache) (k : String) :
    cacheGet (cacheDelete c k) k = none := by
  induction c with
  | nil => rfl
  | cons p rest ih =>
    obtain ⟨a, v⟩ := p
    by_cases h : a = k
    · simp [cacheDelete, h, ih]
    · simp [cacheDelete, cacheGet, h, ih]

/-- Deleting a key leaves every other key unchanged. -/
theorem cacheGet_delete_ne (c : Cache) (k n : String) (h : n ≠ k) :
    cacheGet (cacheDelete c k) n = cacheGet c n := by
  induction c with
  | nil => rfl
  | cons p rest ih =>
    obtain ⟨a, v⟩ := p
    by_cases ha : a = k
    · subst ha
      have : (a == n) = false := by
        simp only [beq_eq_false_iff_ne]
        exact fun hh => h (hh.symm)
      simp [cacheDelete, cacheGet, this, ih]
    · by_cases han : a = n <;> simp [cacheDelete, cacheGet, ha, han, ih, h]

/-- Every entry surviving a delete was already present. -/
theorem cacheGet_delete_sub (c : Cache) (k n : String) (r : Raw)
    (h : cacheGet (cacheDelete c k) n = some r) : cacheGet c n = some r := by
  by_cases hn : n = k
  · subst hn
    rw [cacheGet_delete_self] at h
    exact absurd h (by simp)
  · rwa [cacheGet_delete_ne c k n hn] at h

/-- List.contains over the permanent-redirect status pair, as a disjunction. -/
theorem perm_redirect_contains (s : Int) :
    PERMANENT_REDIRECT_STATUSES.contains s = (s == 301 || s == 308) := by
  cases h1 : s == 301 <;> cases h2 : s == 308 <;>
    simp [PERMANENT_REDIRECT_STATUSES, List.contains, List.elem, h1, h2]

/-- Case-insensitive lookup after a case-insensitive removal. -/
theorem getHeader_headerRemove (hs : Headers) (k n : String) :
    getHeader (headerRemove hs k) n =
      if lowerStr n = lowerStr k then none else getHeader hs n := by
  induction hs with
  | nil => simp [headerRemove, getHeader]
  | cons p rest ih =>
    obtain ⟨a, v⟩ := p
    by_cases hak : lowerStr a = lowerStr k <;>
      by_cases han : lowerStr a = lowerStr n <;>
        by_cases hnk : lowerStr n = lowerStr k <;>
          simp_all [headerRemove, getHeader]

/-- Case-insensitive lookup distributes over append. -/
theorem getHeader_append (xs ys : Headers) (n : String) :
    getHeader (xs ++ ys) n =
      match getHeader xs n with
      | some v => some v
      | none => getHeader ys n := by
  induction xs with
  | nil => simp [getHeader]
  | cons p rest ih =>
    obtain ⟨a, v⟩ := p
    by_cases han : lowerStr a = lowerStr n <;> simp [getHeader, han, ih]

/-- Case-insensitive lookup after a case-insensitive assignment. -/
theorem getHeader_headerSet (hs : Headers) (k v n : String) :
    getHeader (headerSet hs k v) n =
      if lowerStr n = lowerStr k then some v else getHeader hs n := by
  rw [headerSet, getHeader_append, getHeader_headerRemove]
  by_cases hnk : lowerStr n = lowerStr k
  · simp [getHeader, hnk]
  · have hkn : ¬(lowerStr k = lowerStr n) := fun h => hnk h.symm
    cases hg : getHeader hs n <;> simp [getHeader, hnk, hkn, hg]

/-- A bulk update leaves untouched every name it does not mention. -/
theorem getHeader_headersUpdate_not_mem (upd : Headers) (base : Headers) (n : String)
    (h : ∀ p ∈ upd, lowerStr p.1 ≠ lowerStr n) :
    getHeader (headersUpdate base upd) n = getHeader base n := by
  induction upd generalizing base with
  | nil => rfl
  | cons p rest ih =>
    obtain ⟨a, v⟩ := p
    have ha : lowerStr a ≠ lowerStr n := h (a, v) (List.mem_cons_self _ _)
    have hrest : ∀ q ∈ rest, lowerStr q.1 ≠ lowerStr n :=
      fun q hq => h q (List.mem_cons_of_mem _ hq)
    show getHeader (headersUpdate (headerSet base a v) rest) n = getHeader base n
    rw [ih (headerSet base a v) hrest, getHeader_headerSet,
      if_neg (fun hc => ha hc.symm)]

/-- A bulk update with pairwise distinct lowercased names assigns every pair
it mentions. -/
theorem getHeader_headersUpdate_mem (upd : Headers) (k v n : String)
    (hn : lowerStr n = lowerStr k) :
    ∀ base : Headers, noDupLower upd = true → (k, v) ∈ upd →
      getHeader (headersUpdate base upd) n = some v := by
  induction upd with
  | nil => intro base _ hmem; cases hmem
  | cons p rest ih =>
    obtain ⟨a, b⟩ := p
    intro base hnd hmem
    have hall : rest.all (fun q => lowerStr q.1 != lowerStr a) = true ∧ noDupLower rest = true := by
      simpa [noDupLower, Bool.and_eq_true] using hnd
    rcases List.mem_cons.mp hmem with heq | hmem2
    · rw [Prod.mk.injEq] at heq
      obtain ⟨h1, h2⟩ := heq
      subst h1
      subst h2
      have hside : ∀ q ∈ rest, lowerStr q.1 ≠ lowerStr n := by
        intro q hq
        have hq2 := List.all_eq_true.mp hall.1 q hq
        simp only [bne_iff_ne, ne_eq] at hq2
        rw [hn]
        exact hq2
      show getHeader (headersUpdate (headerSet base k v) rest) n = some v
      rw [getHeader_headersUpdate_not_mem rest (headerSet base k v) n hside,
        getHeader_headerSet, if_pos hn]
    · show getHeader (headersUpdate (headerSet base a b) rest) n = some v
      exact ih (headerSet base a b) hall.2 hmem2

/-- A successful case-insensitive lookup comes from a pair of the list. -/
theorem getHeader_exists (hs : Headers) (n v : String) (h : getHeader hs n = some v) :
    ∃ k, (k, v) ∈ hs ∧ lowerStr k = lowerStr n := by
  induction hs with
  | nil => cases h
  | cons p rest ih =>
    obtain ⟨a, b⟩ := p
    by_cases han : lowerStr a = lowerStr n
    · refine ⟨a, ?_, han⟩
      have : b = v := by simpa [getHeader, han] using h
      simp [this]
    · have h2 : getHeader rest n = some v := by simpa [getHeader, han] using h
      obtain ⟨k, hk1, hk2⟩ := ih h2
      exact ⟨k, List.mem_cons_of_mem _ hk1, hk2⟩

/-- A failed case-insensitive lookup means no pair carries the name. -/
theorem getHeader_none (hs : Headers) (n : String) (h : getHeader hs n = none) :
    ∀ p ∈ hs, lowerStr p.1 ≠ lowerStr n := by
  induction hs with
  | nil => intro p hp; cases hp
  | cons q rest ih =>
    obtain ⟨a, b⟩ := q
    intro p hp
    by_cases han : lowerStr a = lowerStr n
    · simp [getHeader, han] at h
    · have h2 : getHeader rest n = none := by simpa [getHeader, han] using h
      rcases List.mem_cons.mp hp with heq | hmem
      · subst heq; exact han
      · exact ih h2 p hmem

/-- Filtering preserves an all-quantified boolean property. -/
theorem all_filter_of_all (l : Headers) (f p : String × String → Bool)
    (h : l.all f = true) : (l.filter p).all f = true := by
  induction l with
  | nil => rfl
  | cons q rest ih =>
    have hq : f q = true ∧ rest.all f = true := by
      simpa [List.all_cons, Bool.and_eq_true] using h
    by_cases hp : p q = true <;> simp [List.filter_cons, hp, List.all_cons, hq.1, ih hq.2]

/-- Filtering preserves pairwise-distinct lowercased names. -/
theorem noDupLower_filter (hs : Headers) (p : String × String → Bool)
    (h : noDupLower hs = true) : noDupLower (hs.filter p) = true := by
  induction hs with
  | nil => rfl
  | cons q rest ih =>
    obtain ⟨a, b⟩ := q
    have hq : rest.all (fun r => lowerStr r.1 != lowerStr a) = true ∧ noDupLower rest = true := by
      simpa [noDupLower, Bool.and_eq_true] using h
    by_cases hp : p (a, b) = true
    · simp [List.filter_cons, hp, noDupLower, all_filter_of_all rest _ p hq.1, ih hq.2]
    · simp [List.filter_cons, hp, ih hq.2]

/-- Membership in a filtered directive map implies membership in the map. -/
theorem ccMem_of_filter (m : CCMap) (f : String × Option Int → Bool) (d : String)
    (h : ccMem (m.filter f) d = true) : ccMem m d = true := by
  induction m with
  | nil => simp [ccMem, ccGet] at h
  | cons p rest ih =>
    obtain ⟨a, v⟩ := p
    by_cases had : a = d
    · simp [ccMem, ccGet, had]
    · by_cases hf : f (a, v) = true
      · rw [List.filter_cons, if_pos hf] at h
        have h2 : ccMem (rest.filter f) d = true := by
          simpa [ccMem, ccGet, had] using h
        simpa [ccMem, ccGet, had] using ih h2
      · rw [List.filter_cons, if_neg hf] at h
        simpa [ccMem, ccGet, had] using ih h

/-- A key present after a dictionary assignment is the assigned key or was
already present. -/
theorem ccMem_ccInsert (m : CCMap) (k : String) (v : Option Int) (d : String)
    (h : ccMem (ccInsert m k v) d = true) : d = k ∨ ccMem m d = true := by
  by_cases hdk : d = k
  · exact Or.inl hdk
  · right
    have hkd : ¬(k = d) := fun h2 => hdk h2.symm
    have h3 : ccMem (m.filter (fun p => p.1 != k)) d = true := by
      simpa [ccMem, ccGet, ccInsert, hkd] using h
    exact ccMem_of_filter _ _ _ h3

/-- The per-directive loop only ever adds keys of the known_directives
table. -/
theorem parseDirective_known (m : CCMap) (s : String)
    (hm : ∀ d, ccMem m d = true → (known_directives d).isSome = true) :
    ∀ d, ccMem (parseDirective m s) d = true → (known_directives d).isSome = true := by
  intro d hd
  simp only [parseDirective] at hd
  split at hd
  · exact hm d hd
  · split at hd
    · exact hm d hd
    · rename_i typ required hk
      repeat' split at hd
      all_goals first
        | exact hm d hd
        | (rcases ccMem_ccInsert _ _ _ _ hd with h9 | h9
           · subst h9
             rw [hk]
             rfl
           · first
             | exact hm d h9
             | (rcases ccMem_ccInsert _ _ _ _ h9 with h8 | h8
                · subst h8
                  rw [hk]
                  rfl
                · exact hm d h8))

/-- parse_cache_control only ever produces keys of the known_directives
table: unrecognized directive names are dropped. -/
theorem parse_cache_control_known (headers : Headers) :
    ∀ d, ccMem (parse_cache_control headers) d = true →
      (known_directives d).isSome = true := by
  have main : ∀ (segs : List String) (m : CCMap),
      (∀ d, ccMem m d = true → (known_directives d).isSome = true) →
      ∀ d, ccMem (segs.foldl parseDirective m) d = true →
        (known_directives d).isSome = true := by
    intro segs
    induction segs with
    | nil => intro m hm; exact hm
    | cons a rest ih =>
      intro m hm
      exact ih (parseDirective m a) (parseDirective_known m a hm)
  intro d hd
  simp only [parse_cache_control] at hd
  exact main _ [] (by intro d2 hd2; simp [ccMem, ccGet] at hd2) d hd

/-- Structure of the backend state after cached_request: it is either
untouched or the result of deleting the request's own cache key. -/
theorem cached_request_cache_shape (C : Controller) (cache : Cache) (now : Int)
    (request_url : Uri) (request_headers : Headers) :
    (cached_request C cache now request_url request_headers).2 = cache
    ∨ ∃ cu, cache_url request_url = Except.ok cu
        ∧ (cached_request C cache now request_url request_headers).2 = cacheDelete cache cu := by
  simp only [cached_request]
  repeat' split
  all_goals first
    | exact Or.inl rfl
    | exact Or.inr ⟨_, by assumption, rfl⟩

/-- C1 (code bug): the spec computes the freshness lifetime from the STORED
response's max-age / Expires, so with a stored Date of 100, stored response
max-age=60 and no stored ETag, a lookup at now = 130 (T+30) must be a hit.
The source instead reads date, cache-control and etag from the CURRENT
request's headers (controller.py:141, 151, 159, 170, 198 all use
request_headers), so a normal request carrying no Date header makes the
lookup purge the entry and report a miss. -/
theorem cached_request_ignores_stored_freshness :
    cached_request (mkController (some freshResp)) [(testKey, [1])] 130 testUri []
      = (Except.ok none, []) := rfl

/-- C3 (code bug): on a status code outside the cacheable set the source is
meant to return without storing and without raising, but the debug call
`logger.debug("Status code %s not in %s", response.status, ...)` at
controller.py:238 evaluates the undefined name `response`, so the call
raises NameError.  Here a 404 response carrying both an ETag and
max-age=60: nothing is stored, but an exception is raised. -/
theorem cache_response_uncacheable_status_raises :
    cache_response (mkController none) [] testUri []
      [("etag", "x"), ("cache-control", "max-age=60")] 404 "Not Found" "HTTP/1.1"
      (some [65])
      = (Except.error "NameError: name response is not defined", []) := rfl

/-- C4 (code bug): conditional_headers is meant to return the If-None-Match
and If-Modified-Since headers of the stored entry and never raise, but the
source evaluates the undefined name `request_headers` at controller.py:207,
so every call on a valid URL raises NameError (an invalid URL raises the
InvalidURL error even earlier). -/
theorem conditional_headers_always_raises (C : Controller) (cache : Cache) (u : Uri)
    (h1 : strIsEmpty u.scheme = false) (h2 : strIsEmpty u.authority = false) :
    conditional_headers C cache u
      = Except.error "NameError: name request_headers is not defined" := by
  simp [conditional_headers, cache_url, h1, h2]

/-- Witness for C4 at a concrete controller, backend and URL. -/
theorem conditional_headers_always_raises_witness :
    conditional_headers (mkController none) [] testUri
      = Except.error "NameError: name request_headers is not defined" :=
  conditional_headers_always_raises (mkController none) [] testUri rfl rfl

/-- C6 counterexample: the claim says a directive whose value fails to parse
is dropped and in particular `max-stale=abc` yields no max-stale entry, but
the source first records non-required directives with no value and the
failed int() parse then leaves that entry in place: max-stale IS present,
with no value. -/
theorem parse_cache_control_max_stale_kept :
    ccMem (parse_cache_control [("cache-control", "max-stale=abc")]) "max-stale" = true
    ∧ ccGet (parse_cache_control [("cache-control", "max-stale=abc")]) "max-stale"
        = some none :=
  ⟨rfl, rfl⟩

/-- C6 as amended: parse_cache_control drops unrecognized directive names
(first conjunct, for every input) without disturbing recognized directives
in the same header (foo=1, max-age=30 keeps only max-age=30); a directive
that REQUIRES a value and has none or has an unparsable value is dropped
(max-age, min-fresh); a non-required int directive with a missing or
unparsable value is kept with no value (max-stale); flag-only directives
are recorded with no value. -/
theorem parse_cache_control_rules :
    (∀ (headers : Headers) (d : String),
        ccMem (parse_cache_control headers) d = true →
          (known_directives d).isSome = true)
    ∧ ccGet (parse_cache_control [("cache-control", "foo=1, max-age=30")]) "foo" = none
    ∧ ccGet (parse_cache_control [("cache-control", "foo=1, max-age=30")]) "max-age"
        = some (some 30)
    ∧ ccGet (parse_cache_control [("cache-control", "max-age=abc")]) "max-age" = none
    ∧ ccGet (parse_cache_control [("cache-control", "max-age")]) "max-age" = none
    ∧ ccGet (parse_cache_control [("cache-control", "min-fresh")]) "min-fresh" = none
    ∧ ccGet (parse_cache_control [("cache-control", "max-stale")]) "max-stale" = some none
    ∧ ccGet (parse_cache_control [("cache-control", "no-cache")]) "no-cache" = some none
    ∧ ccGet (parse_cache_control [("cache-control", "no-cache, no-store")]) "no-store"
        = some none :=
  ⟨parse_cache_control_known, rfl, rfl, rfl, rfl, rfl, rfl, rfl, rfl⟩

/-- Witness for C6: the universally quantified conjunct applied at a
concrete header set and directive name. -/
theorem parse_cache_control_rules_witness :
    (known_directives "max-age").isSome = true :=
  parse_cache_control_rules.1 [("cache-control", "max-age=30")] "max-age" (by decide)

/-- C7 (code bug): the claim deletes a stale entry exactly when the STORED
entry has no ETag, so a stale entry whose stored response carries an ETag
must be left in the backend.  The source instead tests
`"etag" not in request_headers` (controller.py:198): with a stored entry
carrying ETag tag-xyz and Date 100, a dateless-etag-less request at
now = 300 finds the entry stale and purges it anyway. -/
theorem cached_request_stale_purge_ignores_stored_etag :
    cached_request (mkController (some etagResp)) [(testKey, [1])] 300 testUri
      [("date", "100")]
      = (Except.ok none, []) := rfl

/-- C9: once a lookup reaches deserialization (valid URL, no no-cache, no
max-age=0 in the request directives, entry present and decodable) and the
stored status is 301 or 308, the cached response is returned immediately
with the backend untouched, for every clock value and independently of any
Date header or freshness data. -/
theorem cached_request_permanent_redirect_immediate
    (C : Controller) (cache : Cache) (now : Int) (request_url : Uri)
    (request_headers : Headers) (cu : String) (d : Raw) (resp : Resp)
    (h1 : cache_url request_url = Except.ok cu)
    (h2 : ccMem (parse_cache_control request_headers) "no-cache" = false)
    (h3 : (ccGet (parse_cache_control request_headers) "max-age" == some (some 0)) = false)
    (h4 : cacheGet cache cu = some d)
    (h5 : C.loads request_headers d = some resp)
    (h6 : resp.status = 301 ∨ resp.status = 308) :
    cached_request C cache now request_url request_headers
      = (Except.ok (some resp), cache) := by
  have hred : resp.status ∈ PERMANENT_REDIRECT_STATUSES := by
    rcases h6 with h | h <;> simp [PERMANENT_REDIRECT_STATUSES, h]
  simp [cached_request, h1, h2, h3, h4, h5, hred]

/-- Witness for C9: a stored 301 with no Date header is returned at an
arbitrarily late clock value. -/
theorem cached_request_permanent_redirect_immediate_witness :
    cached_request (mkController (some redirectResp)) [(testKey, [1])] 999999 testUri []
      = (Except.ok (some redirectResp), [(testKey, [1])]) :=
  cached_request_permanent_redirect_immediate _ _ _ _ _ testKey [1] redirectResp
    rfl rfl rfl rfl rfl (Or.inl rfl)

/-- C10: cached_request never creates or modifies a backend entry.  Any key
whose entry differs after the call is the request's own cache key, and its
entry was deleted (the lookup can purge that one entry and nothing else). -/
theorem cached_request_frame_effect
    (C : Controller) (cache : Cache) (now : Int) (request_url : Uri)
    (request_headers : Headers) (k : String)
    (h : cacheGet (cached_request C cache now request_url request_headers).2 k
          ≠ cacheGet cache k) :
    cache_url request_url = Except.ok k
    ∧ cacheGet (cached_request C cache now request_url request_headers).2 k = none := by
  rcases cached_request_cache_shape C cache now request_url request_headers
    with hs | ⟨cu, hcu, hs⟩
  · rw [hs] at h
    exact absurd rfl h
  · by_cases hk : k = cu
    · subst hk
      exact ⟨hcu, by rw [hs, cacheGet_delete_self]⟩
    · rw [hs, cacheGet_delete_ne cache cu k hk] at h
      exact absurd rfl h

/-- Witness for C10: a lookup that purges the entry under the request's own
key changed that key, and the change is a deletion. -/
theorem cached_request_frame_effect_witness :
    cache_url testUri = Except.ok testKey
    ∧ cacheGet (cached_request (mkController (some bareResp)) [(testKey, [4])] 0
        testUri []).2 testKey = none :=
  cached_request_frame_effect _ _ _ _ _ testKey (by decide)

/-- C8 counterexample: the claim deletes ANY existing entry under the key
when no-store is in play, but the source guards the delete with the Python
truthiness of the fetched raw value (controller.py:268), so an existing
entry whose raw value is empty bytes is left in the backend (and nothing
is stored). -/
theorem cache_response_no_store_empty_raw_kept :
    cacheGet [(testKey, ([] : Raw))] testKey = some []
    ∧ cache_response (mkController none) [(testKey, [])] testUri []
        [("cache-control", "no-store")] 200 "OK" "HTTP/1.1" none
      = (Except.ok (), [(testKey, [])]) :=
  ⟨rfl, rfl⟩

/-- C8 as amended: when no-store appears in the request or response
directives (and the status, content-length and URL checks pass), the call
succeeds, any existing NON-EMPTY entry under the request's cache key is
removed, every other key is untouched, and nothing new is stored. -/
theorem cache_response_no_store_purges
    (C : Controller) (cache : Cache) (request_url : Uri)
    (request_headers response_headers : Headers) (status : Int)
    (reason ver : String) (body : Option Raw) (cu : String)
    (h1 : C.cacheable_status_codes.contains status = true)
    (h2 : contentLengthMismatch response_headers body = false)
    (h3 : cache_url request_url = Except.ok cu)
    (h4 : (ccMem (parse_cache_control response_headers) "no-store"
           || ccMem (parse_cache_control request_headers) "no-store") = true) :
    NoStorePurgeHolds C cache request_url request_headers response_headers
      status reason ver body cu := by
  have h1m : status ∈ C.cacheable_status_codes := by simpa using h1
  by_cases ht : rawTruthy (cacheGet cache cu) = true
  · refine ⟨cacheDelete cache cu, ?_, ?_, ?_, ?_⟩
    · simp [cache_response, h1m, h2, h3, h4, ht]
    · intro r _ _
      exact cacheGet_delete_self cache cu
    · intro k hk
      exact cacheGet_delete_ne cache cu k hk
    · intro k r hr
      exact cacheGet_delete_sub cache cu k r hr
  · have ht2 : rawTruthy (cacheGet cache cu) = false := by simpa using ht
    refine ⟨cache, ?_, ?_, ?_, ?_⟩
    · simp [cache_response, h1m, h2, h3, h4, ht2]
    · intro r hr hne
      exfalso
      rw [hr] at ht2
      cases r with
      | nil => exact hne rfl
      | cons a t => simp [rawTruthy] at ht2
    · intro k _
      rfl
    · intro k r hr
      exact hr

/-- Witness for C8: a truthy stored entry is purged by a no-store response.
-/
theorem cache_response_no_store_purges_witness :
    NoStorePurgeHolds (mkController none) [(testKey, [9])] testUri []
      [("cache-control", "no-store")] 200 "OK" "HTTP/1.1" none testKey :=
  cache_response_no_store_purges _ _ _ _ _ _ _ _ _ _
    (by decide) rfl rfl (by decide)

/-- C2 counterexample: the claim stores only when clause (d) has a NON-EMPTY
Expires value, but the source's inner `if response_headers["expires"]:` only
guards a log message, so a 200 response with a Date header, no max-age, no
ETag and an EMPTY Expires value is stored anyway (here: the backend gains
the entry even though the claim's store condition is false). -/
theorem cache_response_empty_expires_stored :
    specStoreCondition (mkController none) [("date", "Thu"), ("expires", "")] 200 = false
    ∧ cache_response (mkController none) [] testUri [] [("date", "Thu"), ("expires", "")]
        200 "OK" "HTTP/1.1" (some [65])
      = (Except.ok (), [(testKey, [1])]) :=
  ⟨rfl, rfl⟩

/-- C2 as amended: once the status, content-length, no-store and Vary checks
pass (and the URL is valid), the response is stored (under the cache key,
serialized with the body of the applicable branch: the original body for the
etag and date branches, empty bytes for the permanent-redirect branch) if
and only if (a) etag caching is enabled and the response carries an ETag, or
(b) the status is 301 or 308, or the response has a Date header and either
(c) its directives carry a positive max-age or (d) an Expires header is
present (with any value, even empty); otherwise the backend is unchanged. -/
theorem cache_response_store_decision
    (C : Controller) (cache : Cache) (request_url : Uri)
    (request_headers response_headers : Headers) (status : Int)
    (reason ver : String) (body : Option Raw) (cu : String)
    (h1 : C.cacheable_status_codes.contains status = true)
    (h2 : contentLengthMismatch response_headers body = false)
    (h3 : cache_url request_url = Except.ok cu)
    (h4 : ccMem (parse_cache_control response_headers) "no-store" = false)
    (h5 : ccMem (parse_cache_control request_headers) "no-store" = false)
    (h6 : strContainsChar ((getHeader response_headers "vary").getD "") '*' = false) :
    cache_response C cache request_url request_headers response_headers status
      reason ver body
      = (Except.ok (),
         if codeStoreCondition C response_headers status then
           cacheSet cache cu
             (C.dumps request_headers response_headers status ver reason
               (storedBody C response_headers status body))
         else cache) := by
  have h1m : status ∈ C.cacheable_status_codes := by simpa using h1
  by_cases hA : (C.cache_etags && hasHeader response_headers "etag") = true <;>
    by_cases hB : (status = 301 ∨ status = 308) <;>
      by_cases hD : hasHeader response_headers "date" = true <;>
        by_cases hM : (match ccGet (parse_cache_control response_headers) "max-age" with
          | some v => decide (v.getD 0 > 0)
          | none => false) = true <;>
          by_cases hE : hasHeader response_headers "expires" = true <;>
            simp [cache_response, codeStoreCondition, storedBody, h1m, h2, h3, h4, h5,
              h6, hA, hB, hD, hM, hE, PERMANENT_REDIRECT_STATUSES]

/-- Witness for C2 at a concrete stored case (etag branch). -/
theorem cache_response_store_decision_witness :
    cache_response (mkController none) [] testUri [] [("etag", "tag9")] 200 "OK"
      "HTTP/1.1" (some [65])
      = (Except.ok (),
         if codeStoreCondition (mkController none) [("etag", "tag9")] 200 then
           cacheSet [] testKey
             ((mkController none).dumps [] [("etag", "tag9")] 200 "HTTP/1.1" "OK"
               (storedBody (mkController none) [("etag", "tag9")] 200 (some [65])))
         else []) :=
  cache_response_store_decision _ _ _ _ _ _ _ _ _ _ rfl rfl rfl rfl rfl rfl

/-- C5: on an existing entry that decodes to `cached`, update_cached_response
overwrites the stored header set with every header of the 304 response except
content-length, forces the status to 200, keeps the original body bytes,
re-serializes and overwrites the backend entry, and returns the
(version, 200, reason, merged headers, body) tuple.  The 304 header set is
assumed to have pairwise distinct lowercased names (a header dictionary). -/
theorem update_cached_response_merges
    (C : Controller) (cache : Cache) (request_url : Uri)
    (request_headers response_headers : Headers) (cu : String) (d : Raw) (cached : Resp)
    (h1 : cache_url request_url = Except.ok cu)
    (h2 : cacheGet cache cu = some d)
    (h3 : C.loads request_headers d = some cached)
    (h4 : noDupLower response_headers = true) :
    UpdateSpecHolds C cache request_url request_headers response_headers cu cached := by
  refine ⟨⟨cached.http_version, 200, cached.reason,
    headersUpdate cached.headers (response_headers.filter
      (fun p => !(excluded_headers.contains (lowerStr p.1)))), cached.body⟩,
    ?_, rfl, rfl, rfl, rfl, ?_, ?_, ?_⟩
  · simp [update_cached_response, h1, h2, h3]
  · apply getHeader_headersUpdate_not_mem
    intro p hp
    have hpred := (List.mem_filter.mp hp).2
    simp only [excluded_headers, List.contains_cons, List.contains_nil,
      Bool.or_false, Bool.not_eq_true', beq_eq_false_iff_ne, ne_eq] at hpred
    have hcl : lowerStr "content-length" = "content-length" := rfl
    rw [hcl]
    exact hpred
  · intro n hn hhas
    obtain ⟨v, hv⟩ := Option.isSome_iff_exists.mp hhas
    obtain ⟨k0, hk0mem, hk0low⟩ := getHeader_exists _ _ _ hv
    have hk0pred : (!(excluded_headers.contains (lowerStr k0))) = true := by
      simp only [excluded_headers, List.contains_cons, List.contains_nil,
        Bool.or_false, Bool.not_eq_true', beq_eq_false_iff_ne, ne_eq]
      rw [hk0low]
      exact hn
    have hup : (k0, v) ∈ response_headers.filter
        (fun p => !(excluded_headers.contains (lowerStr p.1))) :=
      List.mem_filter.mpr ⟨hk0mem, hk0pred⟩
    rw [hv]
    exact getHeader_headersUpdate_mem _ k0 v n hk0low.symm cached.headers
      (noDupLower_filter _ _ h4) hup
  · intro n hnone
    apply getHeader_headersUpdate_not_mem
    intro p hp
    exact getHeader_none _ _ hnone p (List.mem_filter.mp hp).1

/-- Witness for C5 at a concrete entry and 304 header set. -/
theorem update_cached_response_merges_witness :
    UpdateSpecHolds (mkController (some mergeCached)) [(testKey, [2])] testUri []
      mergeRespHeaders testKey mergeCached :=
  update_cached_response_merges _ _ _ _ _ _ _ _ rfl rfl rfl (by decide)

end CacheCtrl
